import Mathlib

/-!
Verification development for the terraform-runner repository.

Shallow embedding of:
  * `src/non_blocking_process/process.py` (`NonBlockingProcess`):
    per-stream append-only buffers with a read cursor and a queue of pending
    chunks, plus the operations `read`, `readall`, `seek`, `tell`, `wait`.
  * `src/non_blocking_process/pool.py` (`Pool`, `FutureNonBlockingProcess`):
    the scheduler loop as a transition system over slot / job-queue state,
    and the deferred-handle forwarding.
  * `src/terraform/runner.py` (`Runner`): the environment merge of
    `_run_wrapper`, the `plan` probe/re-init state machine over a scripted
    spawn strategy, and the `apply` precondition.

Python text is modelled as `List Char`; machine-level concerns (threads,
real time) are modelled by explicit state: a reader thread's delivered-but-
unread chunks are the `pending` list, and "the process has exited and both
reader threads were joined" is the point at which `wait`'s final drain runs.
-/

/-- State of one output stream of a `NonBlockingProcess`: the `io.StringIO`
buffer (`buf` is its contents, `pos` its cursor) together with the queue of
chunks the reader thread has delivered but that have not yet been merged
into the buffer (`_stdout_q` / `_stderr_q` in the source). -/
structure StreamSt where
  buf : List Char
  pos : Nat
  pending : List (List Char)
deriving Repr, DecidableEq

/-- The complete text delivered so far on a stream: the buffered log plus
every pending chunk in arrival order. -/
def StreamSt.transcript (s : StreamSt) : List Char :=
  s.buf ++ s.pending.flatten

/-- State of a `NonBlockingProcess`: the exit status as last observed by
`process.poll()` (`none` while running) and the two output streams. -/
structure NBProc where
  returncode : Option Int
  stdout : StreamSt
  stderr : StreamSt
deriving Repr, DecidableEq

/-- Errors of the process layer. `invalidStream` models the `ValueError`
raised by `_check_stream_valid`, carrying the tuple of valid streams. -/
inductive PErr where
  | invalidStream (streams : List String)
deriving Repr, DecidableEq

/-- The `OUTPUT_STREAMS` tuple of `NonBlockingProcess`. -/
def OUTPUT_STREAMS : List String := ["stdout", "stderr"]

/-- `_check_stream_valid`: a stream name is valid iff it is one of the
entries of `OUTPUT_STREAMS` (i.e. `"stdout"` or `"stderr"`). -/
def checkStreamValid (stream : String) : Bool :=
  stream == "stdout" || stream == "stderr"

/-- `getattr(self, stream)` for a valid stream name. -/
def NBProc.getStream (p : NBProc) (stream : String) : StreamSt :=
  if stream = "stdout" then p.stdout else p.stderr

/-- `setattr`-style update of the named stream. -/
def NBProc.setStream (p : NBProc) (stream : String) (s : StreamSt) : NBProc :=
  if stream = "stdout" then { p with stdout := s } else { p with stderr := s }

/-- Core of `NonBlockingProcess.read` on one stream: drain the pending
queue into the buffer (each chunk is written at the end, `seek(0, SEEK_END)`
then `write`), restore the saved cursor, then `StringIO.read(size)` from the
cursor: a negative `size` reads to the end, a non-negative one reads at most
`size` characters; the cursor advances past the returned text. -/
def streamRead (s : StreamSt) (size : Int) : List Char × StreamSt :=
  let merged := s.buf ++ s.pending.flatten
  let avail := merged.drop s.pos
  let ret := if size < 0 then avail else avail.take size.toNat
  (ret, { buf := merged, pos := s.pos + ret.length, pending := [] })

/-- `NonBlockingProcess.read(size, stream)`. -/
def NBProc.read (p : NBProc) (size : Int) (stream : String) :
    Except PErr (List Char × NBProc) :=
  if checkStreamValid stream then
    let r := streamRead (p.getStream stream) size
    .ok (r.1, p.setStream stream r.2)
  else .error (.invalidStream OUTPUT_STREAMS)

/-- `NonBlockingProcess.readall(stream)`: save the cursor, seek to 0, do a
full `read`, then restore the saved cursor. -/
def NBProc.readall (p : NBProc) (stream : String) :
    Except PErr (List Char × NBProc) :=
  if checkStreamValid stream then
    let s := p.getStream stream
    let r := streamRead { s with pos := 0 } (-1)
    .ok (r.1, p.setStream stream { r.2 with pos := s.pos })
  else .error (.invalidStream OUTPUT_STREAMS)

/-- `NonBlockingProcess.seek(position, stream)`: validate the stream, then
reposition its cursor (`StringIO.seek` accepts any non-negative position,
including one beyond the end of the buffer). -/
def NBProc.seek (p : NBProc) (position : Nat) (stream : String) :
    Except PErr NBProc :=
  if checkStreamValid stream then
    .ok (p.setStream stream { p.getStream stream with pos := position })
  else .error (.invalidStream OUTPUT_STREAMS)

/-- `NonBlockingProcess.tell(stream)`: validate the stream, then report its
cursor. -/
def NBProc.tell (p : NBProc) (stream : String) : Except PErr Nat :=
  if checkStreamValid stream then .ok (p.getStream stream).pos
  else .error (.invalidStream OUTPUT_STREAMS)

/-- The per-stream finalisation performed by `wait` once the process has
exited and the reader thread was joined: `self.read(stream=stream)` (drain
the queue, cursor moves to the end) followed by `stream.seek(0)`. -/
def streamFinalize (s : StreamSt) : StreamSt :=
  { (streamRead s (-1)).2 with pos := 0 }

/-- `NonBlockingProcess.wait`, modelled at the point where the polling loop
has observed the process exit and both reader threads were joined, so each
stream's `pending` queue holds the remainder of its transcript: the final
drain and cursor reset on both streams. -/
def NBProc.wait (p : NBProc) : NBProc :=
  { p with stdout := streamFinalize p.stdout, stderr := streamFinalize p.stderr }

/-- A stream name passes `_check_stream_valid` exactly when it is
`"stdout"` or `"stderr"`. -/
lemma checkStreamValid_eq_true_iff (stream : String) :
    checkStreamValid stream = true ↔ stream = "stdout" ∨ stream = "stderr" := by
  simp [checkStreamValid]

/-- A concrete handle used to instantiate universally quantified theorems:
stdout holds buffered text `"ab"` with cursor 1 and one pending chunk
`"cd"`; stderr is empty. -/
def sampleProc : NBProc :=
  { returncode := some 0
    stdout := { buf := "ab".data, pos := 1, pending := ["cd".data] }
    stderr := { buf := [], pos := 0, pending := [] } }

/-- C8: `seek` and `tell` validate that the stream is one of
`OUTPUT_STREAMS = ["stdout", "stderr"]` (membership is exactly what
`_check_stream_valid` accepts), and for any other stream argument both fail
with the invalid-stream error instead of repositioning or reporting a
cursor. -/
theorem seek_tell_validate_stream (p : NBProc) (position : Nat) (stream : String) :
    (checkStreamValid stream = true ↔ stream ∈ OUTPUT_STREAMS)
    ∧ (stream ∉ OUTPUT_STREAMS →
        p.seek position stream = .error (.invalidStream OUTPUT_STREAMS)
        ∧ p.tell stream = .error (.invalidStream OUTPUT_STREAMS)) := by
  have hiff : checkStreamValid stream = true ↔ stream ∈ OUTPUT_STREAMS := by
    rw [checkStreamValid_eq_true_iff]
    simp [OUTPUT_STREAMS]
  refine ⟨hiff, fun hmem => ?_⟩
  have hfalse : checkStreamValid stream = false := by
    rcases Bool.eq_false_or_eq_true (checkStreamValid stream) with h | h
    · exact absurd (hiff.1 h) hmem
    · exact h
  constructor
  · simp [NBProc.seek, hfalse]
  · simp [NBProc.tell, hfalse]

/-- Closed instance of `seek_tell_validate_stream` at a concrete invalid
stream name. -/
theorem seek_tell_validate_stream_witness :
    "stdin" ∉ OUTPUT_STREAMS
    ∧ ((checkStreamValid "stdin" = true ↔ "stdin" ∈ OUTPUT_STREAMS)
      ∧ ("stdin" ∉ OUTPUT_STREAMS →
          sampleProc.seek 0 "stdin" = .error (.invalidStream OUTPUT_STREAMS)
          ∧ sampleProc.tell "stdin" = .error (.invalidStream OUTPUT_STREAMS))) :=
  ⟨by decide, seek_tell_validate_stream sampleProc 0 "stdin"⟩

/-- C6: for a valid stream, `readall` returns the full buffered log (from
position 0 to the end, pending chunks merged in) and leaves the cursor
unchanged: `tell` on the resulting handle equals `tell` on the original. -/
theorem readall_frames_cursor (p : NBProc) (stream : String)
    (h : checkStreamValid stream = true) :
    p.readall stream =
      .ok ((p.getStream stream).transcript,
        p.setStream stream
          ⟨(p.getStream stream).transcript, (p.getStream stream).pos, []⟩)
    ∧ (p.setStream stream
        ⟨(p.getStream stream).transcript, (p.getStream stream).pos, []⟩).tell stream
      = p.tell stream := by
  rcases (checkStreamValid_eq_true_iff stream).1 h with h1 | h1 <;> subst h1 <;>
    exact ⟨by simp [NBProc.readall, NBProc.getStream, NBProc.setStream, streamRead,
                    StreamSt.transcript, checkStreamValid],
           by simp [NBProc.tell, NBProc.getStream, NBProc.setStream, checkStreamValid]⟩

/-- Closed instance of `readall_frames_cursor` on `sampleProc`'s stdout. -/
theorem readall_frames_cursor_witness :
    checkStreamValid "stdout" = true
    ∧ (sampleProc.readall "stdout" =
        .ok ((sampleProc.getStream "stdout").transcript,
          sampleProc.setStream "stdout"
            ⟨(sampleProc.getStream "stdout").transcript,
             (sampleProc.getStream "stdout").pos, []⟩)
      ∧ (sampleProc.setStream "stdout"
          ⟨(sampleProc.getStream "stdout").transcript,
           (sampleProc.getStream "stdout").pos, []⟩).tell "stdout"
        = sampleProc.tell "stdout") :=
  ⟨by decide, readall_frames_cursor sampleProc "stdout" (by decide)⟩

/-- Unfolding equation for `read` on a valid stream. -/
lemma read_eq_ok (p : NBProc) (size : Int) (stream : String)
    (h : checkStreamValid stream = true) :
    p.read size stream =
      .ok ((streamRead (p.getStream stream) size).1,
           p.setStream stream (streamRead (p.getStream stream) size).2) := by
  simp [NBProc.read, h]

/-- `tell` after an update of the same stream reports the updated cursor. -/
lemma tell_setStream (p : NBProc) (stream : String) (v : StreamSt)
    (h : checkStreamValid stream = true) :
    (p.setStream stream v).tell stream = .ok v.pos := by
  rcases (checkStreamValid_eq_true_iff stream).1 h with h1 | h1 <;> subst h1 <;>
    simp [NBProc.tell, NBProc.setStream, NBProc.getStream, checkStreamValid]

/-- A `streamRead` moves the cursor forward by the length of the returned
text. -/
lemma streamRead_pos (s : StreamSt) (size : Int) :
    (streamRead s size).2.pos = s.pos + (streamRead s size).1.length := rfl

/-- A full (`size < 0`) `streamRead` from a cursor within the merged log
leaves the cursor at the end of the merged log. -/
lemma streamRead_pos_neg (s : StreamSt) (size : Int) (hneg : size < 0)
    (h : s.pos ≤ s.transcript.length) :
    (streamRead s size).2.pos = s.transcript.length := by
  simp only [StreamSt.transcript] at h ⊢
  have heq : (streamRead s size).2.pos
      = s.pos + ((s.buf ++ s.pending.flatten).drop s.pos).length := by
    simp [streamRead, hneg]
  rw [heq, List.length_drop]
  omega

/-- C10 (amended): for a valid stream, `read(size, stream)` advances the
cursor by exactly the length of the returned text (`tell` afterwards equals
`tell` before plus that length), and with the default `size = -1` the
cursor lands at the end of the merged log provided the prior cursor did not
already sit beyond that end. -/
theorem read_advances_cursor (p : NBProc) (size : Int) (stream : String)
    (h : checkStreamValid stream = true) :
    ∃ ret p', p.read size stream = .ok (ret, p')
      ∧ p.tell stream = .ok (p.getStream stream).pos
      ∧ p'.tell stream = .ok ((p.getStream stream).pos + ret.length)
      ∧ (size < 0 → (p.getStream stream).pos ≤ (p.getStream stream).transcript.length →
          p'.tell stream = .ok ((p.getStream stream).transcript.length)) := by
  refine ⟨(streamRead (p.getStream stream) size).1,
          p.setStream stream (streamRead (p.getStream stream) size).2,
          read_eq_ok p size stream h, by simp [NBProc.tell, h], ?_, ?_⟩
  · rw [tell_setStream p stream _ h, streamRead_pos]
  · intro hneg hle
    rw [tell_setStream p stream _ h, streamRead_pos_neg _ _ hneg hle]

/-- Closed instance of `read_advances_cursor` on `sampleProc`'s stdout. -/
theorem read_advances_cursor_witness :
    checkStreamValid "stdout" = true
    ∧ (∃ ret p', sampleProc.read 1 "stdout" = .ok (ret, p')
      ∧ sampleProc.tell "stdout" = .ok (sampleProc.getStream "stdout").pos
      ∧ p'.tell "stdout" = .ok ((sampleProc.getStream "stdout").pos + ret.length)
      ∧ ((1 : Int) < 0 →
          (sampleProc.getStream "stdout").pos
            ≤ (sampleProc.getStream "stdout").transcript.length →
          p'.tell "stdout" = .ok ((sampleProc.getStream "stdout").transcript.length))) :=
  ⟨by decide, read_advances_cursor sampleProc 1 "stdout" (by decide)⟩

/-- C10 counterexample: the claim "with the default `size = -1` the cursor
lands at the end of the merged log" fails when the cursor was placed beyond
the end via `seek` (which the code permits): from a handle whose stdout log
holds only the pending chunk `"ab"`, `seek(3)` then `read(-1)` returns `""`
and leaves `tell` at 3, not at the merged length 2. -/
theorem read_default_cursor_counterexample :
    (NBProc.seek ⟨none, ⟨[], 0, ["ab".data]⟩, ⟨[], 0, []⟩⟩ 3 "stdout"
        = .ok ⟨none, ⟨[], 3, ["ab".data]⟩, ⟨[], 0, []⟩⟩)
    ∧ ¬ (∀ (p : NBProc) (stream : String), checkStreamValid stream = true →
        ∀ ret p', p.read (-1) stream = .ok (ret, p') →
          p'.tell stream = .ok ((p.getStream stream).transcript.length)) := by
  refine ⟨rfl, fun hclaim => ?_⟩
  have h1 := hclaim ⟨none, ⟨[], 3, ["ab".data]⟩, ⟨[], 0, []⟩⟩ "stdout" (by decide)
  have h2 := h1 [] ⟨none, ⟨"ab".data, 3, []⟩, ⟨[], 0, []⟩⟩ rfl
  simp [NBProc.tell, NBProc.getStream, StreamSt.transcript, checkStreamValid] at h2

/-- C3: once the process has exited (`returncode = some c`) and `wait`'s
final drain has run, the exit status is unchanged and non-null, both
cursors sit at 0, and `readall` on each stream returns that stream's
complete transcript (everything delivered up to the `wait`), regardless of
how the handle was read from beforehand. -/
theorem wait_finalizes (p : NBProc) (c : Int) (h : p.returncode = some c) :
    p.wait.returncode = some c
    ∧ p.wait.tell "stdout" = .ok 0 ∧ p.wait.tell "stderr" = .ok 0
    ∧ p.wait.readall "stdout" = .ok (p.stdout.transcript, p.wait)
    ∧ p.wait.readall "stderr" = .ok (p.stderr.transcript, p.wait) := by
  refine ⟨?_, ?_, ?_, ?_, ?_⟩ <;>
    simp [NBProc.wait, NBProc.tell, NBProc.readall, NBProc.getStream, NBProc.setStream,
          streamFinalize, streamRead, StreamSt.transcript, checkStreamValid, h]

/-- Closed instance of `wait_finalizes` on `sampleProc`. -/
theorem wait_finalizes_witness :
    sampleProc.returncode = some 0
    ∧ (sampleProc.wait.returncode = some 0
      ∧ sampleProc.wait.tell "stdout" = .ok 0 ∧ sampleProc.wait.tell "stderr" = .ok 0
      ∧ sampleProc.wait.readall "stdout" = .ok (sampleProc.stdout.transcript, sampleProc.wait)
      ∧ sampleProc.wait.readall "stderr" = .ok (sampleProc.stderr.transcript, sampleProc.wait)) :=
  ⟨rfl, wait_finalizes sampleProc 0 rfl⟩

/-!
Model of `Pool._manage_thread_pool` (`src/non_blocking_process/pool.py`).

The scheduler is a single thread: it pops one job from the FIFO `job_queue`,
then scans `pool` (the slot list) for the first index `i` with
`pool[i] is None or pool[i].process.poll() is not None`, spawning the job's
process there; until a slot frees it retries the same job in place.
Concurrently, any running process may exit.  We model this interleaving as a
transition system: processes are numbered in spawn order (`running[pid]`
records whether process `pid` is still running), jobs are numbers in
enqueue order, and `doneJobs` lists the jobs already given a slot in
scheduling order.
-/

/-- State of a pool: the slot array (holding process numbers), the status
of every process spawned so far, the jobs already scheduled (in order), the
job the scheduler currently holds (popped but not yet placed), and the jobs
still in the queue. -/
structure PoolState where
  slots : List (Option Nat)
  running : List Bool
  doneJobs : List Nat
  current : Option Nat
  pending : List Nat
deriving Repr, DecidableEq

/-- `Pool.__init__` with `workers = n` and an enqueue history `jobs`:
`n` empty slots, nothing spawned, the whole queue pending. -/
def initPoolState (n : Nat) (jobs : List Nat) : PoolState :=
  { slots := List.replicate n none, running := [], doneJobs := [],
    current := none, pending := jobs }

/-- One transition of the pool system: the scheduler pops the head job
(`jobs.get`), the scheduler places its held job into a slot that is empty
or whose occupant has exited (`pool[i] is None or poll() is not None`), or
some running process exits. -/
inductive PoolStep : PoolState → PoolState → Prop where
  | dequeue (s : PoolState) (j : Nat) (rest : List Nat)
      (hcur : s.current = none) (hq : s.pending = j :: rest) :
      PoolStep s { s with current := some j, pending := rest }
  | schedule (s : PoolState) (j : Nat) (i : Nat)
      (hcur : s.current = some j)
      (hfree : s.slots[i]? = some none ∨
        ∃ pid, s.slots[i]? = some (some pid) ∧ s.running.getD pid false = false) :
      PoolStep s { s with
        slots := s.slots.set i (some s.running.length),
        running := s.running ++ [true],
        doneJobs := s.doneJobs ++ [j],
        current := none }
  | procExit (s : PoolState) (pid : Nat)
      (hrun : s.running.getD pid false = true) :
      PoolStep s { s with running := s.running.set pid false }

/-- States reachable from a fresh pool of `n` workers with enqueue history
`jobs`. -/
inductive PoolReachable (n : Nat) (jobs : List Nat) : PoolState → Prop where
  | init : PoolReachable n jobs (initPoolState n jobs)
  | step {s t : PoolState} : PoolReachable n jobs s → PoolStep s t →
      PoolReachable n jobs t

/-- Every process still running occupies some slot. -/
def RunningInSlot (s : PoolState) : Prop :=
  ∀ pid : Nat, s.running.getD pid false = true →
    ∃ i : Nat, s.slots[i]? = some (some pid)

/-- Pool invariant: the slot count never changes, every running process
sits in a slot, and scheduled + held + queued jobs are exactly the enqueue
history in order. -/
def PoolInv (n : Nat) (jobs : List Nat) (s : PoolState) : Prop :=
  s.slots.length = n ∧ RunningInSlot s
    ∧ s.doneJobs ++ s.current.toList ++ s.pending = jobs

lemma poolInv_init (n : Nat) (jobs : List Nat) :
    PoolInv n jobs (initPoolState n jobs) := by
  refine ⟨by simp [initPoolState], ?_, by simp [initPoolState]⟩
  unfold RunningInSlot
  intro pid h
  simp [initPoolState] at h

lemma poolInv_step {n : Nat} {jobs : List Nat} {s t : PoolState}
    (hs : PoolInv n jobs s) (hst : PoolStep s t) : PoolInv n jobs t := by
  obtain ⟨hlen, hslot, horder⟩ := hs
  cases hst with
  | dequeue j rest hcur hq =>
      refine ⟨hlen, hslot, ?_⟩
      dsimp only
      rw [← horder, hcur, hq]
      simp
  | schedule j i hcur hfree =>
      have hilt : i < s.slots.length := by
        rcases hfree with h | ⟨pid', h, _⟩ <;>
          exact (List.getElem?_eq_some_iff.1 h).1
      refine ⟨by simpa using hlen, ?_, ?_⟩
      · unfold RunningInSlot
        intro pid hpid
        dsimp only at hpid ⊢
        by_cases hlt : pid < s.running.length
        · have hrun : s.running.getD pid false = true := by
            rw [List.getD_eq_getElem?_getD] at hpid ⊢
            rwa [List.getElem?_append_left hlt] at hpid
          obtain ⟨i', hi'⟩ := hslot pid hrun
          by_cases hii : i' = i
          · subst hii
            rcases hfree with hnone | ⟨pid', hpid', hnotrun⟩
            · rw [hi'] at hnone
              cases hnone
            · rw [hi'] at hpid'
              have hpe : pid = pid' := by
                injection hpid' with h1
                injection h1
              rw [← hpe, hrun] at hnotrun
              cases hnotrun
          · exact ⟨i', by rw [List.getElem?_set_ne (fun h => hii h.symm)]; exact hi'⟩
        · rcases Nat.lt_or_ge pid (s.running.length + 1) with hpe | hgt
          · have hpid_eq : pid = s.running.length := by omega
            subst hpid_eq
            exact ⟨i, by rw [List.getElem?_set_self hilt]⟩
          · exfalso
            rw [List.getD_eq_getElem?_getD,
                List.getElem?_eq_none (by simp; omega)] at hpid
            simp at hpid
      · dsimp only
        rw [← horder, hcur]
        simp
  | procExit pid0 hrun0 =>
      refine ⟨hlen, ?_, horder⟩
      unfold RunningInSlot
      intro pid hpid
      dsimp only at hpid ⊢
      apply hslot
      by_cases hpp : pid = pid0
      · subst hpp
        by_cases hlt : pid < s.running.length
        · rw [List.getD_eq_getElem?_getD, List.getElem?_set_self hlt] at hpid
          simp at hpid
        · rwa [List.set_eq_of_length_le (by omega)] at hpid
      · rwa [List.getD_eq_getElem?_getD, List.getElem?_set_ne (fun h => hpp h.symm),
             ← List.getD_eq_getElem?_getD] at hpid

/-- Every reachable pool state satisfies the invariant. -/
lemma poolInv_reachable {n : Nat} {jobs : List Nat} {s : PoolState}
    (h : PoolReachable n jobs s) : PoolInv n jobs s := by
  induction h with
  | init => exact poolInv_init n jobs
  | step _ hst ih => exact poolInv_step ih hst

/-- Number of processes spawned by the scheduler that are currently in the
running (not-yet-exited) state. -/
def runningCount (s : PoolState) : Nat :=
  ((Finset.range s.running.length).filter
    (fun pid => s.running.getD pid false = true)).card

/-- C2: in every reachable state of a pool with `n` worker slots, at most
`n` of the processes spawned by the scheduler are simultaneously running:
the slot guard (spawn only into an empty slot or one whose occupant's exit
status is non-null) keeps every running process pinned to a distinct slot. -/
theorem pool_concurrency_bound (n : Nat) (jobs : List Nat) (s : PoolState)
    (h : PoolReachable n jobs s) : runningCount s ≤ n := by
  classical
  obtain ⟨hlen, hslot, -⟩ := poolInv_reachable h
  unfold runningCount
  have hb : ∀ pid ∈ (Finset.range s.running.length).filter
      (fun pid => s.running.getD pid false = true),
      ∃ i : Nat, s.slots[i]? = some (some pid) := by
    intro pid hpid
    exact hslot pid (Finset.mem_filter.1 hpid).2
  refine le_trans (Finset.card_le_card_of_injOn
    (fun pid => if hp : ∃ i : Nat, s.slots[i]? = some (some pid)
      then Nat.find hp else 0) ?_ ?_) (le_of_eq (Finset.card_range n))
  · intro pid hpid
    have hp := hb pid hpid
    simp only [dif_pos hp]
    have hspec := Nat.find_spec hp
    have hlt : Nat.find hp < s.slots.length := (List.getElem?_eq_some_iff.1 hspec).1
    rw [Finset.mem_range]
    omega
  · intro p1 h1 p2 h2 heq
    have hp1 := hb p1 (Finset.mem_coe.1 h1)
    have hp2 := hb p2 (Finset.mem_coe.1 h2)
    have s1 := Nat.find_spec hp1
    have s2 := Nat.find_spec hp2
    simp only [dif_pos hp1, dif_pos hp2] at heq
    rw [heq, s2] at s1
    injection s1 with a
    injection a with b
    exact b.symm

/-- Closed instance of `pool_concurrency_bound` after a dequeue and a
schedule step in a 1-slot pool. -/
theorem pool_concurrency_bound_witness :
    runningCount ⟨[some 0], [true], [5], none, [7]⟩ ≤ 1 :=
  pool_concurrency_bound 1 [5, 7] _
    (.step (.step .init (.dequeue _ 5 [7] rfl rfl))
      (.schedule _ 5 0 rfl (Or.inl rfl)))

/-- C5: the scheduler assigns slots to jobs in FIFO order.  In the model a
popped job is retried in place (`current`) by the single scheduler thread,
so in every reachable state the jobs scheduled so far (`doneJobs`, in
scheduling order) are exactly an initial segment of the enqueue history: a
later-queued job is never spawned while an earlier-queued job still waits. -/
theorem pool_fifo_order (n : Nat) (jobs : List Nat) (s : PoolState)
    (h : PoolReachable n jobs s) :
    ∃ rest : List Nat, s.doneJobs ++ rest = jobs := by
  obtain ⟨-, -, horder⟩ := poolInv_reachable h
  refine ⟨s.current.toList ++ s.pending, ?_⟩
  rw [← List.append_assoc]
  exact horder

/-- Closed instance of `pool_fifo_order` after a dequeue and a schedule
step in a 1-slot pool. -/
theorem pool_fifo_order_witness :
    ∃ rest : List Nat,
      (⟨[some 0], [true], [5], none, [7]⟩ : PoolState).doneJobs ++ rest = [5, 7] :=
  pool_fifo_order 1 [5, 7] _
    (.step (.step .init (.dequeue _ 5 [7] rfl rfl))
      (.schedule _ 5 0 rfl (Or.inl rfl)))

/-!
Model of `FutureNonBlockingProcess` (`src/non_blocking_process/pool.py`):
a wrapper around a single-assignment `concurrent.futures.Future`.
`__getattr__` / `__setattr__` (for anything other than the internal
`_future` machinery) call `self._future.result()`, which blocks the caller
until `set_result` has been called, and then act on the bound handle.
Blocking is modelled as the absence of a produced value: an operation on an
unresolved future yields `blocked` (no result is available to the caller
before assignment). -/

/-- A deferred process handle: `futureVal = none` while the scheduler has
not yet assigned a real handle, `some h` afterwards. -/
structure FutureNBP where
  futureVal : Option NBProc
deriving Repr, DecidableEq

/-- Outcome of an operation on a deferred handle: either the caller is
still blocked waiting on the future, or the operation completed with a
value. -/
inductive Blocking (α : Type) where
  | blocked
  | done (a : α)
deriving Repr

/-- `set_result`: single assignment (a second `set_result` on a resolved
future raises, modelled as `none`). -/
def FutureNBP.setResult (f : FutureNBP) (h : NBProc) : Option FutureNBP :=
  match f.futureVal with
  | none => some { futureVal := some h }
  | some _ => none

/-- `__getattr__`-style forwarding: an attribute read or method call `op`
waits on the future, then is performed on the bound handle. -/
def FutureNBP.forwardGet {α : Type} (f : FutureNBP) (op : NBProc → α) :
    Blocking α :=
  match f.futureVal with
  | none => .blocked
  | some h => .done (op h)

/-- `__setattr__`-style forwarding: an attribute write `upd` waits on the
future, then mutates the bound handle (the future keeps referencing the
updated handle). -/
def FutureNBP.forwardSet (f : FutureNBP) (upd : NBProc → NBProc) :
    Blocking FutureNBP :=
  match f.futureVal with
  | none => .blocked
  | some h => .done { futureVal := some (upd h) }

/-- C4: an attribute read or method call (`forwardGet`) or attribute write
(`forwardSet`) on a deferred handle produces no result while the future is
unassigned (the caller stays blocked), and once a handle is assigned it
returns exactly the result of performing the identical operation directly
on the bound `NBProc`. -/
theorem future_forwarding {α : Type} (f : FutureNBP) (op : NBProc → α)
    (upd : NBProc → NBProc) :
    (f.futureVal = none →
      f.forwardGet op = .blocked ∧ f.forwardSet upd = .blocked)
    ∧ (∀ h : NBProc, f.futureVal = some h →
      f.forwardGet op = .done (op h)
      ∧ f.forwardSet upd = .done { futureVal := some (upd h) }) := by
  constructor
  · intro hnone
    exact ⟨by simp [FutureNBP.forwardGet, hnone], by simp [FutureNBP.forwardSet, hnone]⟩
  · intro h hsome
    exact ⟨by simp [FutureNBP.forwardGet, hsome], by simp [FutureNBP.forwardSet, hsome]⟩

/-- Closed instance of `future_forwarding` on a future bound to
`sampleProc`: reading `returncode` and calling `wait` forward to the bound
handle. -/
theorem future_forwarding_witness :
    (FutureNBP.mk (some sampleProc)).futureVal = some sampleProc
    ∧ ((FutureNBP.mk (some sampleProc)).forwardGet NBProc.returncode
        = .done sampleProc.returncode
      ∧ (FutureNBP.mk (some sampleProc)).forwardSet NBProc.wait
        = .done { futureVal := some sampleProc.wait }) :=
  ⟨rfl, (future_forwarding (FutureNBP.mk (some sampleProc))
      NBProc.returncode NBProc.wait).2 sampleProc rfl⟩

/-!
Model of `Runner` (`src/terraform/runner.py`).
-/

/-- `Runner.TERRAFORM_ENTRYPOINT`. -/
def TERRAFORM_ENTRYPOINT : List String := ["bash", "--login", "-c"]

/-- Errors raised by `Runner` before spawning: the failed
`assert (project / "default.tfplan").is_file()` in `apply`. -/
inductive RunnerErr where
  | preconditionFailed
deriving Repr, DecidableEq

/-- `Runner.apply`: assert that the saved plan artifact `default.tfplan`
exists in the project directory; only then spawn
`terraform apply default.tfplan` through `_run_wrapper` (which prepends
`TERRAFORM_ENTRYPOINT`).  The first component records every command
spawned, in order; the assertion failing aborts before any spawn. -/
def applyRun (planArtifactPresent : Bool) :
    List (List String) × Except RunnerErr Unit :=
  if planArtifactPresent then
    ([TERRAFORM_ENTRYPOINT ++ ["terraform apply default.tfplan"]], .ok ())
  else ([], .error .preconditionFailed)

/-- C7: when the project directory lacks `default.tfplan`, `apply` fails
with the precondition error having spawned no process; when the artifact
exists, `apply` spawns exactly `terraform apply` against that artifact. -/
theorem apply_requires_plan_artifact :
    applyRun false = ([], .error .preconditionFailed)
    ∧ applyRun true
      = ([["bash", "--login", "-c", "terraform apply default.tfplan"]], .ok ()) :=
  ⟨rfl, rfl⟩

/-- An environment: a partial map from variable names to values.  A Python
dict built as `{a..., **b}` looks keys up in `b` first (later entries
override earlier ones). -/
abbrev EnvMap := String → Option String

/-- Boolean "the first list is an initial segment of the second",
character by character. -/
def charStarts : List Char → List Char → Bool
  | [], _ => true
  | _ :: _, [] => false
  | a :: as, b :: bs => a == b && charStarts as bs

/-- `k.lower().startswith(pre)` for a lowercase pattern `pre`. -/
def envLowerStarts (pre : String) (k : String) : Bool :=
  charStarts pre.data (k.data.map Char.toLower)

/-- The dict comprehension
`{k: v for k, v in os.environ.items() if k.lower().startswith(pre)}`. -/
def filterEnvByPre (pre : String) (osEnv : EnvMap) : EnvMap :=
  fun k => if envLowerStarts pre k then osEnv k else none

/-- Merge of two dicts where the second one's entries win (`{**a, **b}`). -/
def mergeEnv (a b : EnvMap) : EnvMap :=
  fun k =>
    match b k with
    | some v => some v
    | none => a k

/-- The fixed diagnostic entries of `_run_wrapper`'s env dict: `HOME`
(from `os.environ.get("HOME", "/")`), `TF_LOG`, `TF_LOG_PATH` (a path under
the caller's HOME; the source indexes `os.environ["HOME"]` here, which
raises when HOME is absent — the value is irrelevant to the merge order)
and `AWS_SDK_LOAD_CONFIG`. -/
def fixedEnv (osEnv : EnvMap) : EnvMap :=
  fun k =>
    if k = "HOME" then some ((osEnv "HOME").getD "/")
    else if k = "TF_LOG" then some "TRACE"
    else if k = "TF_LOG_PATH" then some ((osEnv "HOME").getD "/" ++ "/.terraform.log")
    else if k = "AWS_SDK_LOAD_CONFIG" then some "true"
    else none

/-- The environment `_run_wrapper` hands the spawned process: the dict
literal merges, in order, the fixed diagnostic entries, the `aws_`-,
`okta_`- and `artifactory_`-prefixed passthrough variables from the
caller's environment, and finally the credential supplier's mapping. -/
def runWrapperEnv (osEnv cred : EnvMap) : EnvMap :=
  mergeEnv (mergeEnv (mergeEnv (mergeEnv (fixedEnv osEnv)
    (filterEnvByPre "aws_" osEnv)) (filterEnvByPre "okta_" osEnv))
    (filterEnvByPre "artifactory_" osEnv)) cred

/-- C9: whatever variable the credential supplier defines — including one
colliding with a passthrough variable or a fixed diagnostic variable — its
value is the one placed in the spawned process's environment, because the
supplier's mapping is merged last. -/
theorem cred_overrides_env (osEnv cred : EnvMap) (k v : String)
    (h : cred k = some v) : runWrapperEnv osEnv cred k = some v := by
  unfold runWrapperEnv mergeEnv
  rw [h]

/-- Closed instance of `cred_overrides_env`: `AWS_PROFILE` is defined both
by the caller's environment (an `aws_`-prefixed passthrough variable) and
by the credential supplier; the supplier's value wins. -/
theorem cred_overrides_env_witness :
    (fun q => if q = "AWS_PROFILE" then some "from-cred" else none : EnvMap)
        "AWS_PROFILE" = some "from-cred"
    ∧ envLowerStarts "aws_" "AWS_PROFILE" = true
    ∧ (fun _ => some "from-os" : EnvMap) "AWS_PROFILE" = some "from-os"
    ∧ runWrapperEnv (fun _ => some "from-os")
        (fun q => if q = "AWS_PROFILE" then some "from-cred" else none)
        "AWS_PROFILE" = some "from-cred" :=
  ⟨rfl, by decide, rfl,
    cred_overrides_env (fun _ => some "from-os")
      (fun q => if q = "AWS_PROFILE" then some "from-cred" else none)
      "AWS_PROFILE" "from-cred" (by simp)⟩

/-!
Model of `Runner.plan`.  `plan` spawns `terraform plan`, then probes the
accumulated output: if stdout contains `"Backend reinitialization required"`
or stderr matches the regex `"terraform\s*init"` (a literal double quote,
`terraform`, optional whitespace, `init`, a literal double quote), it waits
for the plan process, runs `init`, and either returns the failed init
handle (init exit ≠ 0) or recursively re-runs `plan` (init exit 0).  In
every other case the probe loop ends (on the "Refreshing state" marker, on
an unexpected exit code, or when its 120 iterations are exhausted) and the
plan handle itself is returned.

The spawn strategy is scripted: a list of process results consumed in
spawn order, each already complete with its exit code and transcripts
(so the probe conditions are evaluated on the full transcripts).
-/

/-- Substring test: does `needle` occur contiguously in `hay`? -/
def containsSub : List Char → List Char → Bool
  | needle, [] => charStarts needle []
  | needle, c :: t => charStarts needle (c :: t) || containsSub needle t

/-- Python's `\s` class: space, tab, newline, carriage return, vertical
tab, form feed. -/
def isPySpace (c : Char) : Bool :=
  c == ' ' || c == '\t' || c == '\n' || c == '\r' || c == '\x0b' || c == '\x0c'

/-- After the opening `"terraform`, consume `\s*` and then require
`init"` (the `i` of `init` is not whitespace, so the greedy star is
unambiguous). -/
def skipSpacesThenInitQuote : List Char → Bool
  | [] => false
  | c :: t =>
    if charStarts "init\"".data (c :: t) then true
    else if isPySpace c then skipSpacesThenInitQuote t
    else false

/-- Match of the regex `"terraform\s*init"` anchored at the head. -/
def tfInitHere (s : List Char) : Bool :=
  charStarts "\"terraform".data s && skipSpacesThenInitQuote (s.drop 10)

/-- `re.search(r'"terraform\s*init"', s)`: the anchored match at some
position. -/
def searchTfInit : List Char → Bool
  | [] => false
  | s@(_ :: t) => tfInitHere s || searchTfInit t

/-- The stdout marker `plan` probes for. -/
def backendReinitMarker : String := "Backend reinitialization required"

/-- The probe condition that sends `plan` into the re-initialisation
branch: stdout contains the backend-reinitialisation marker, or stderr
matches the `"terraform init"` pattern. -/
def needsInitCond (out err : String) : Bool :=
  containsSub backendReinitMarker.data out.data || searchTfInit err.data

/-- One scripted process: its exit code and full stdout/stderr
transcripts. -/
structure ProcResult where
  exitCode : Int
  stdoutTr : String
  stderrTr : String
deriving Repr, DecidableEq

/-- What `plan` hands back: the plan process handle itself, or — when an
automatic re-initialisation failed — the failed init handle in its place. -/
inductive PlanOutcome where
  | planProc (r : ProcResult)
  | initFailed (r : ProcResult)
deriving Repr, DecidableEq

/-- `Runner.plan` over a scripted spawn strategy.  The head of the script
is the spawned plan process.  If the probe condition fires, the next
script entry is the `init` process: a nonzero init exit returns that
handle (`initFailed`) without re-running plan; a zero init exit re-runs
`plan` on the remaining script.  Otherwise the probe loop terminates and
the plan handle is returned.  The result carries the unconsumed script and
the total number of `init` invocations; `fuel` bounds the recursion depth
(`none` when the script runs dry or the fuel does). -/
def planScripted : Nat → List ProcResult → Option (PlanOutcome × List ProcResult × Nat)
  | _, [] => none
  | fuel, p :: rest =>
    if needsInitCond p.stdoutTr p.stderrTr then
      match rest with
      | [] => none
      | ip :: rest2 =>
        if ip.exitCode ≠ 0 then some (.initFailed ip, rest2, 1)
        else
          match fuel with
          | 0 => none
          | Nat.succ f =>
            (planScripted f rest2).map (fun r => (r.1, r.2.1, r.2.2 + 1))
    else some (.planProc p, rest, 0)

/-- C1: when the spawned plan process's output satisfies the probe
condition, `plan` invokes `init` exactly once (it consumes exactly the next
scripted process and counts one invocation): if init exits nonzero, `plan`
returns the failed init handle in place of the plan handle and does not
re-run plan (the rest of the script is left untouched); if init exits 0,
`plan` re-issues itself recursively on the remaining script. -/
theorem plan_reinit_once (fuel : Nat) (p ip : ProcResult) (rest : List ProcResult)
    (hdetect : needsInitCond p.stdoutTr p.stderrTr = true) :
    (ip.exitCode ≠ 0 →
      planScripted (fuel + 1) (p :: ip :: rest) = some (.initFailed ip, rest, 1))
    ∧ (ip.exitCode = 0 →
      planScripted (fuel + 1) (p :: ip :: rest)
        = (planScripted fuel rest).map (fun r => (r.1, r.2.1, r.2.2 + 1))) := by
  constructor
  · intro hne
    simp [planScripted, hdetect, hne]
  · intro hz
    simp [planScripted, hdetect, hz]

/-- A scripted plan process that reports the backend-reinitialisation
marker on stdout and exits 1. -/
def detectProc : ProcResult :=
  ⟨1, "Backend reinitialization required\n", ""⟩

/-- A scripted init process that fails (exit 1). -/
def failInit : ProcResult := ⟨1, "", "Error: initialization failed"⟩

/-- Closed instance of `plan_reinit_once`: the marker-emitting plan
process followed by a failing init. -/
theorem plan_reinit_once_witness :
    needsInitCond detectProc.stdoutTr detectProc.stderrTr = true
    ∧ ((failInit.exitCode ≠ 0 →
        planScripted (0 + 1) [detectProc, failInit]
          = some (.initFailed failInit, [], 1))
      ∧ (failInit.exitCode = 0 →
        planScripted (0 + 1) [detectProc, failInit]
          = (planScripted 0 []).map (fun r => (r.1, r.2.1, r.2.2 + 1)))) :=
  ⟨by decide, plan_reinit_once 0 detectProc failInit [] (by decide)⟩
